import Mathlib

/-!
Shallow embedding of the GDF import logic of `src/gdf-import.py`
(the parsing part of the function `import_wamit_gdf_operator`), together
with theorems settling the specification claims.

The Python function reads the file into `lines`, initializes
`ulen, grav, isx, isy, npan = 0.0, 0.0, 0.0, 0.0, 0.0`, then sweeps the
lines once with a mutable `in_header` flag:

* while `in_header` is set, a line whose token count is exactly 1 ends
  the header (`continue`); otherwise every keyword of
  `['ULEN', 'GRAV', 'ISX', 'ISY', 'NPAN']` found among the tokens
  assigns `float(words[words.index(kw) - floor(len(words)/2)])` to the
  corresponding variable (Python negative indexing applies);
* after the header, a line with exactly 12 tokens contributes four
  vertex triples and one face `[len(vertices)-4 .. len(vertices)-1]`;
  every other line is ignored.

Afterwards a mirror modifier is keyed on `isx == 1` and on `isy == 1`,
and the object scale is set to `(ulen, ulen, ulen)`.

Numeric values are embedded as exact rationals: Python's binary floating
point is idealized by `ℚ`, and the builtin `float(...)` is modelled on
the token shapes occurring in GDF files (optional sign, decimal digits,
optional fractional part).  An uncaught Python exception (ValueError
from `float`, IndexError from list indexing) aborts the import; this is
modelled with `Except`.
-/

namespace Wamit

/-- Characters treated as whitespace by Python's `str.split()`. -/
def pyIsSpace (c : Char) : Bool :=
  c = ' ' || c = '\t' || c = '\n' || c = '\r' || c = '\x0b' || c = '\x0c'

/-- Whitespace splitting of a character list with an accumulator, as
Python's `str.split()`: maximal runs of non-whitespace characters become
tokens, leading/trailing whitespace is ignored. -/
def wsSplit : List Char → List Char → List (List Char)
  | [], acc => if acc.isEmpty then [] else [acc.reverse]
  | c :: rest, acc =>
    if pyIsSpace c then
      if acc.isEmpty then wsSplit rest [] else acc.reverse :: wsSplit rest []
    else wsSplit rest (c :: acc)

/-- Model of `lines[i].strip().split()` from the source (for `split()`
without arguments the leading `strip()` is redundant). -/
def tokens (s : String) : List String :=
  (wsSplit s.toList []).map (fun cs => String.mk cs)

/-- Numeric value of a list of decimal digit characters. -/
def digitsVal (cs : List Char) : ℕ :=
  cs.foldl (fun a c => a * 10 + (c.toNat - 48)) 0

/-- Unsigned part of the model of Python's `float`: decimal digits with
an optional fractional part, at least one digit in total. -/
def pyFloatCore (cs : List Char) : Option ℚ :=
  let intPart := cs.takeWhile (fun c => c ≠ '.')
  let rest := cs.dropWhile (fun c => c ≠ '.')
  if intPart.all Char.isDigit then
    match rest with
    | [] => if intPart.isEmpty then none else some ((digitsVal intPart : ℕ) : ℚ)
    | _ :: frac =>
      if frac.all Char.isDigit && (!intPart.isEmpty || !frac.isEmpty) then
        some ((digitsVal intPart : ℕ) + (digitsVal frac : ℕ) / ((10 : ℚ) ^ frac.length))
      else none
  else none

/-- Model of Python's builtin `float` on whitespace-free tokens: an
optional sign followed by decimal digits with an optional fractional
part, read as an exact rational.  (Binary floating-point rounding is
idealized away; exponent, infinity and nan forms do not occur in the
inputs considered here.)  `none` models a ValueError. -/
def pyFloat (s : String) : Option ℚ :=
  match s.toList with
  | '-' :: rest => (pyFloatCore rest).map (fun q => -q)
  | '+' :: rest => pyFloatCore rest
  | cs => pyFloatCore cs

/-- A Python exception aborting the import. -/
inductive PyErr where
  | valueError : PyErr
  | indexError : PyErr
  deriving DecidableEq, Repr

/-- Model of Python list indexing `l[i]` with negative-index
wraparound; `none` models an IndexError. -/
def pyGet (l : List String) (i : ℤ) : Option String :=
  let j : ℤ := if i < 0 then (l.length : ℤ) + i else i
  if h : 0 ≤ j ∧ j < (l.length : ℤ) then
    some (l.get ⟨j.toNat, by omega⟩)
  else none

/-- The mutable state of the line sweep in `import_wamit_gdf_operator`:
the five scalar variables, the `in_header` flag, and the accumulated
`vertices` and `faces` lists. -/
structure PSt where
  ulen : ℚ
  grav : ℚ
  isx : ℚ
  isy : ℚ
  npan : ℚ
  in_header : Bool
  vertices : List (ℚ × ℚ × ℚ)
  faces : List (List ℕ)
  deriving DecidableEq, Repr

/-- The keyword list `['ULEN', 'GRAV', 'ISX', 'ISY', 'NPAN']`. -/
def keywords : List String := ["ULEN", "GRAV", "ISX", "ISY", "NPAN"]

/-- The `if keyword == 'ULEN': ... elif ...` chain assigning the parsed
value to the variable named by the keyword. -/
def setKw (s : PSt) (kw : String) (v : ℚ) : PSt :=
  if kw == "ULEN" then { s with ulen := v }
  else if kw == "GRAV" then { s with grav := v }
  else if kw == "ISX" then { s with isx := v }
  else if kw == "ISY" then { s with isy := v }
  else if kw == "NPAN" then { s with npan := v }
  else s

/-- One iteration of the keyword loop: if `kw` occurs among the tokens,
read `words[valueindex]` where
`valueindex = words.index(kw) - floor(len(words)/2)` (possibly negative,
hence Python indexing), convert it with `float`, and assign it. -/
def applyKw (s : PSt) (ws : List String) (kw : String) : Except PyErr PSt :=
  if ws.contains kw then
    match pyGet ws ((ws.indexOf kw : ℤ) - ((ws.length / 2 : ℕ) : ℤ)) with
    | none => .error .indexError
    | some value =>
      match pyFloat value with
      | none => .error .valueError
      | some v => .ok (setKw s kw v)
  else .ok s

/-- The `for keyword in keywords` loop over a header line. -/
def applyKws : PSt → List String → List String → Except PyErr PSt
  | s, _, [] => .ok s
  | s, ws, kw :: ks =>
    match applyKw s ws kw with
    | .error e => .error e
    | .ok s1 => applyKws s1 ws ks

/-- Conversion of the twelve tokens with `float`, left to right; the
first failure raises ValueError (the evaluation order of the list
comprehension in the source). -/
def floatsOf : List String → Except PyErr (List ℚ)
  | [] => .ok []
  | w :: rest =>
    match pyFloat w with
    | none => .error .valueError
    | some v =>
      match floatsOf rest with
      | .error e => .error e
      | .ok vs => .ok (v :: vs)

/-- Grouping of the parsed numbers into the coordinate triples
`(float(words[j]), float(words[j+1]), float(words[j+2]))` for
`j = 0, 3, 6, 9`. -/
def triples : List ℚ → List (ℚ × ℚ × ℚ)
  | a :: b :: c :: rest => (a, b, c) :: triples rest
  | _ => []

/-- Processing of a single line of the file: one iteration of
`for i in range(len(lines))` in the source. -/
def stepLine (s : PSt) (line : String) : Except PyErr PSt :=
  let words := tokens line
  if s.in_header then
    if words.length == 1 then .ok { s with in_header := false }
    else applyKws s words keywords
  else
    if words.length == 12 then
      match floatsOf words with
      | .error e => .error e
      | .ok vals =>
        let newVerts := s.vertices ++ triples vals
        .ok { s with
              vertices := newVerts,
              faces := s.faces ++ [List.range' (newVerts.length - 4) 4] }
    else .ok s

/-- The whole line sweep. -/
def processLines : PSt → List String → Except PyErr PSt
  | s, [] => .ok s
  | s, l :: rest =>
    match stepLine s l with
    | .error e => .error e
    | .ok s1 => processLines s1 rest

/-- The initial state: `ulen, grav, isx, isy, npan = 0.0, ...`, the
sweep starting in header mode with empty `vertices` and `faces`. -/
def initSt : PSt :=
  { ulen := 0, grav := 0, isx := 0, isy := 0, npan := 0,
    in_header := true, vertices := [], faces := [] }

/-- Parser state after the sweep over the given lines. -/
def parseState (lines : List String) : Except PyErr PSt :=
  processLines initSt lines

/-- The data the import produces: the parsed scalar fields, the mesh
handed to `mesh.from_pydata(vertices, [], faces)`, whether a mirror
modifier is added for each axis (`isx == 1`, `isy == 1`), and the
object scale `(ulen, ulen, ulen)`. -/
structure GdfModel where
  ulen : ℚ
  grav : ℚ
  isx : ℚ
  isy : ℚ
  npan : ℚ
  vertices : List (ℚ × ℚ × ℚ)
  faces : List (List ℕ)
  mirrorX : Bool
  mirrorY : Bool
  scale : ℚ × ℚ × ℚ
  deriving DecidableEq, Repr

/-- The tail of the import: mirror flags and the object scale computed
from the final sweep state. -/
def mkModel (s : PSt) : GdfModel :=
  { ulen := s.ulen, grav := s.grav, isx := s.isx, isy := s.isy,
    npan := s.npan, vertices := s.vertices, faces := s.faces,
    mirrorX := decide (s.isx = 1), mirrorY := decide (s.isy = 1),
    scale := (s.ulen, s.ulen, s.ulen) }

/-- The import as a function from the file's lines to the produced
model; an uncaught Python exception is `Except.error`. -/
def parse (lines : List String) : Except PyErr GdfModel :=
  match processLines initSt lines with
  | .error e => .error e
  | .ok s => .ok (mkModel s)

/-- Lines that are processed in header mode and subjected to the
keyword scan: the region before the first line with exactly one
token. -/
def headerRegion (lines : List String) : List String :=
  lines.takeWhile (fun l => !((tokens l).length == 1))

/-- A line none of whose tokens is a keyword. -/
def noKwB (l : String) : Bool :=
  keywords.all (fun kw => !((tokens l).contains kw))

/-- The mesh-relevant part of the sweep state: the header flag and the
accumulated vertices and faces — everything except the five scalar
variables, which are written but never read during the sweep. -/
def meshOf (s : PSt) : Bool × List (ℚ × ℚ × ℚ) × List (List ℕ) :=
  (s.in_header, s.vertices, s.faces)

/-- Decidable equality of `Except` values, for evaluating the parser on
concrete inputs. -/
def exceptDecEq {ε α : Type} [DecidableEq ε] [DecidableEq α] :
    DecidableEq (Except ε α)
  | .error e, .error f =>
    match decEq e f with
    | isTrue h => isTrue (by rw [h])
    | isFalse h => isFalse (fun hh => h (by injection hh))
  | .error _, .ok _ => isFalse (fun hh => Except.noConfusion hh)
  | .ok _, .error _ => isFalse (fun hh => Except.noConfusion hh)
  | .ok a, .ok b =>
    match decEq a b with
    | isTrue h => isTrue (by rw [h])
    | isFalse h => isFalse (fun hh => h (by injection hh))

instance {ε α : Type} [DecidableEq ε] [DecidableEq α] :
    DecidableEq (Except ε α) := exceptDecEq

/-! Concrete inputs used to settle individual claims. -/

/-- A file whose single panel's 12 coordinates are split over four
3-token lines, the layout the WAMIT format documentation (quoted in the
source's own comments) explicitly allows.  The decimal fractions appear
only on lines the code never converts. -/
def c1Lines : List String :=
  ["a b", "1 9 ULEN GRAV", "1",
   "-7.5 -2.5 1.0", "-6.5 -2.5 1.0", "-6.5 -1.5 1.0", "-7.5 -1.5 1.0"]

/-- A file whose symmetry line carries the out-of-range value ISX = 2. -/
def c2Lines : List String :=
  ["a b", "2 0 ISX ISY", "1", "0 0 0 1 0 0 1 1 0 0 1 0"]

/-- The model the import produces for `c2Lines`. -/
def c2Model : GdfModel :=
  { ulen := 0, grav := 0, isx := 2, isy := 0, npan := 0,
    vertices := [(0, 0, 0), (1, 0, 0), (1, 1, 0), (0, 1, 0)],
    faces := [[0, 1, 2, 3]],
    mirrorX := false, mirrorY := false, scale := (0, 0, 0) }

/-- A twelve-number data line (used to show it is ignored while the
sweep is still in header mode). -/
def c3Panel : String := "0 0 0 1 0 0 1 1 0 0 1 0"

/-- A file declaring ULEN = -1. -/
def c4Lines : List String :=
  ["a b", "-1 9 ULEN GRAV", "1", "0 0 0 1 0 0 1 1 0 0 1 0"]

/-- The model the import produces for `c4Lines`. -/
def c4Model : GdfModel :=
  { ulen := -1, grav := 9, isx := 0, isy := 0, npan := 0,
    vertices := [(0, 0, 0), (1, 0, 0), (1, 1, 0), (0, 1, 0)],
    faces := [[0, 1, 2, 3]],
    mirrorX := false, mirrorY := false, scale := (-1, -1, -1) }

/-- A file with ULEN = 1 whose only panel has all four vertices
coincident at (2,2,2): its area is 0 under any formula, far below the
threshold `ulen^2 * 1e-10 = 1e-10`. -/
def c5Lines : List String :=
  ["a b", "1 9 ULEN GRAV", "1", "2 2 2 2 2 2 2 2 2 2 2 2"]

/-- A file declaring NPAN = 5 while containing exactly one panel. -/
def c6Lines : List String :=
  ["a b", "5 NPAN", "1", "0 0 0 1 0 0 1 1 0 0 1 0"]

/-- A minimal one-panel file with no keyword labels. -/
def c7Lines : List String := ["a b", "1", "0 0 0 1 0 0 1 1 0 0 1 0"]

/-- The model the import produces for `c7Lines`. -/
def c7Model : GdfModel :=
  { ulen := 0, grav := 0, isx := 0, isy := 0, npan := 0,
    vertices := [(0, 0, 0), (1, 0, 0), (1, 1, 0), (0, 1, 0)],
    faces := [[0, 1, 2, 3]],
    mirrorX := false, mirrorY := false, scale := (0, 0, 0) }

/-- A two-panel unlabeled file. -/
def c10Lines : List String :=
  ["x y", "1", "0 0 0 1 0 0 1 1 0 0 1 0", "0 0 1 1 0 1 1 1 1 0 1 1"]

/-! Helper lemmas about the keyword loop. -/

theorem setKw_meshOf (s : PSt) (kw : String) (v : ℚ) :
    meshOf (setKw s kw v) = meshOf s := by
  unfold setKw
  repeat' split
  all_goals rfl

theorem applyKw_ok_meshOf {s t : PSt} {ws : List String} {kw : String}
    (h : applyKw s ws kw = .ok t) : meshOf t = meshOf s := by
  by_cases hc : ws.contains kw
  · rcases hg : pyGet ws ((ws.indexOf kw : ℤ) - ((ws.length / 2 : ℕ) : ℤ)) with _ | value
    · simp only [applyKw, hc, hg, if_true] at h
      exact Except.noConfusion h
    · rcases hf : pyFloat value with _ | v
      · simp only [applyKw, hc, hg, hf, if_true] at h
        exact Except.noConfusion h
      · simp only [applyKw, hc, hg, hf, if_true, Except.ok.injEq] at h
        rw [← h]
        exact setKw_meshOf s kw v
  · simp only [applyKw, hc, if_false, Except.ok.injEq, Bool.false_eq_true] at h
    rw [← h]

theorem applyKw_not_contains {s : PSt} {ws : List String} {kw : String}
    (h : ws.contains kw = false) : applyKw s ws kw = .ok s := by
  unfold applyKw
  rw [h]
  rfl

theorem applyKws_ok_meshOf {ks : List String} :
    ∀ {s t : PSt} {ws : List String}, applyKws s ws ks = .ok t → meshOf t = meshOf s := by
  induction ks with
  | nil => intro s t ws h; cases h; rfl
  | cons kw ks ih =>
    intro s t ws h
    rcases ha : applyKw s ws kw with e | s1
    · simp only [applyKws, ha] at h
      exact Except.noConfusion h
    · simp only [applyKws, ha] at h
      exact (ih h).trans (applyKw_ok_meshOf ha)

theorem applyKws_no_kw {ks : List String} :
    ∀ {s : PSt} {ws : List String}, (∀ k ∈ ks, ws.contains k = false) →
      applyKws s ws ks = .ok s := by
  induction ks with
  | nil => intro s ws _; rfl
  | cons kw ks ih =>
    intro s ws h
    unfold applyKws
    rw [applyKw_not_contains (h kw (by simp))]
    exact ih (fun k hk => h k (by simp [hk]))

/-! Helper lemmas about the float conversions of a data line. -/

theorem floatsOf_ok_length {ws : List String} :
    ∀ {vs : List ℚ}, floatsOf ws = .ok vs → vs.length = ws.length := by
  induction ws with
  | nil => intro vs h; cases h; rfl
  | cons w ws ih =>
    intro vs h
    rcases hf : pyFloat w with _ | v
    · simp only [floatsOf, hf] at h
      exact Except.noConfusion h
    · rcases hr : floatsOf ws with e | vs1
      · simp only [floatsOf, hf, hr] at h
        exact Except.noConfusion h
      · simp only [floatsOf, hf, hr, Except.ok.injEq] at h
        rw [← h]
        simp [ih hr]

theorem floatsOf_all_isSome {ws : List String}
    (h : (ws.all fun w => (pyFloat w).isSome) = true) :
    ∃ vs, floatsOf ws = .ok vs := by
  induction ws with
  | nil => exact ⟨[], rfl⟩
  | cons w ws ih =>
    simp only [List.all_cons, Bool.and_eq_true] at h
    rcases Option.isSome_iff_exists.mp h.1 with ⟨v, hv⟩
    rcases ih h.2 with ⟨vs, hvs⟩
    exact ⟨v :: vs, by unfold floatsOf; rw [hv, hvs]⟩

/-! Claim theorems: concrete evaluations. -/

/-- Claim C1 (code bug evidence): on a file whose single panel's 12
coordinates are split over four 3-token lines — a layout the format
documentation quoted in the source's own comments explicitly allows —
the code produces no panel at all: every line whose token count is not
exactly 12 is silently ignored, so `faces` and `vertices` stay empty
instead of containing the accumulated panel. -/
theorem c1_split_panel_dropped :
    (parse c1Lines).map (fun m => (m.ulen, m.vertices, m.faces)) =
      .ok (1, [], []) := by decide

/-- Claim C2 counterexample: the symmetry value ISX = 2 (outside {0,1})
does not yield any error — the import succeeds and produces a model
with `isx = 2`, simply not applying a mirror. -/
theorem c2_out_of_range_symmetry_accepted :
    parse c2Lines = .ok c2Model ∧ c2Model.isx = 2 ∧
      c2Model.mirrorX = false ∧ c2Model.faces.length = 1 := by decide

/-- Claim C3 counterexample: after consuming one line whose token count
is 2, the sweep is still in the header state (`in_header = true`), and
a 12-token data line in second position is consequently ignored — the
header state does not end unconditionally after one line. -/
theorem c3_multi_token_first_line_keeps_header :
    (parseState ["a b"]).map (fun s => s.in_header) = .ok true ∧
      (parse ["a b", c3Panel, "1", c3Panel]).map (fun m => m.faces.length) =
        .ok 1 := by decide

/-- Claim C4 counterexample: a file declaring ULEN = -1 parses without
any error; the model carries the non-positive `ulen` and uses it
directly as the object scale. -/
theorem c4_nonpositive_ulen_accepted :
    parse c4Lines = .ok c4Model ∧ c4Model.ulen = -1 ∧ c4Model.ulen ≤ 0 ∧
      c4Model.scale = (-1, -1, -1) := by decide

/-- Claim C5 counterexample: with `ulen = 1`, a panel whose four
vertices all coincide at (2,2,2) — its area is 0 under any formula,
below the threshold `ulen^2 * 1e-10` — is stored as an ordinary panel
and the import succeeds with no diagnostic of any kind. -/
theorem c5_zero_area_panel_accepted :
    (parse c5Lines).map (fun m => (m.ulen, m.vertices, m.faces)) =
      .ok (1, [(2, 2, 2), (2, 2, 2), (2, 2, 2), (2, 2, 2)], [[0, 1, 2, 3]]) := by
  decide

/-- Claim C6 counterexample: a file declaring NPAN = 5 while containing
exactly one panel parses successfully; the code performs no comparison
of the declared count with the parsed count and emits no warning
diagnostic (indeed it cannot: the import produces no diagnostics). -/
theorem c6_npan_mismatch_no_warning :
    (parse c6Lines).map (fun m => (m.npan, m.faces.length)) = .ok (5, 1) := by
  decide

/-- Claim C8: the import is a pure function of the file's lines, so two
runs on the same input produce identical models (same vertices, faces,
scale, symmetry values) — determinism holds by reflexivity of the
embedding. -/
theorem c8_parse_deterministic : ∀ lines : List String, parse lines = parse lines :=
  fun _ => rfl

/-! Structure of the accumulated faces: the mesh invariant. -/

theorem triples_length : ∀ l : List ℚ, (triples l).length = l.length / 3
  | _ :: _ :: _ :: rest => by
    simp only [triples, List.length_cons, triples_length rest]
    omega
  | [] => by simp only [triples, List.length_nil]
  | [_] => by simp only [triples, List.length_nil, List.length_cons]
  | [_, _] => by simp only [triples, List.length_nil, List.length_cons]

/-- The faces list the sweep builds after `n` panels. -/
def facesSpec (n : ℕ) : List (List ℕ) :=
  (List.range n).map (fun i => List.range' (4 * i) 4)

/-- Invariant of the sweep state: four vertices per face, and the `i`-th
face indexing the `i`-th block of four vertices. -/
def FacesInv (s : PSt) : Prop :=
  s.vertices.length = 4 * s.faces.length ∧ s.faces = facesSpec s.faces.length

theorem facesSpec_succ (n : ℕ) :
    facesSpec (n + 1) = facesSpec n ++ [List.range' (4 * n) 4] := by
  simp [facesSpec, List.range_succ]

theorem stepLine_facesInv {s t : PSt} {l : String} (hinv : FacesInv s)
    (h : stepLine s l = .ok t) : FacesInv t := by
  obtain ⟨hv, hfc⟩ := hinv
  simp only [stepLine] at h
  split at h
  · split at h
    · cases h
      exact ⟨hv, hfc⟩
    · have hm := applyKws_ok_meshOf h
      simp only [meshOf, Prod.mk.injEq] at hm
      refine ⟨?_, ?_⟩
      · rw [hm.2.1, hm.2.2]; exact hv
      · rw [hm.2.2]; exact hfc
  · split at h
    · rename_i h12
      split at h
      · exact Except.noConfusion h
      · rename_i vals hf
        cases h
        have hlen12 : (tokens l).length = 12 := by simpa using h12
        have hvals : vals.length = 12 := (floatsOf_ok_length hf).trans hlen12
        have htr : (triples vals).length = 4 := by rw [triples_length, hvals]
        have hsub : (s.vertices ++ triples vals).length - 4 = 4 * s.faces.length := by
          simp only [List.length_append, htr]
          omega
        constructor
        · simp only [List.length_append, htr, List.length_cons, List.length_nil]
          omega
        · have hlenf :
              (s.faces ++ [List.range' ((s.vertices ++ triples vals).length - 4) 4]).length =
                s.faces.length + 1 := by simp
          rw [hlenf, facesSpec_succ, ← hfc, hsub]
    · cases h
      exact ⟨hv, hfc⟩

theorem processLines_facesInv {lines : List String} :
    ∀ {s t : PSt}, FacesInv s → processLines s lines = .ok t → FacesInv t := by
  induction lines with
  | nil => intro s t hinv h; cases h; exact hinv
  | cons l rest ih =>
    intro s t hinv h
    rcases hs : stepLine s l with e | s1
    · simp only [processLines, hs] at h
      exact Except.noConfusion h
    · simp only [processLines, hs] at h
      exact ih (stepLine_facesInv hinv hs) h

theorem facesInv_initSt : FacesInv initSt := ⟨rfl, rfl⟩

theorem range_four (k : ℕ) : List.range' k 4 = [k, k + 1, k + 2, k + 3] := rfl

/-- Claim C7: every panel stored in the produced model has a face with
exactly 4 vertex indices (four stored vertex triples, i.e. 12 floats),
irrespective of how the source lines were laid out — the sweep only ever
appends a block of four vertices together with a 4-entry face. -/
theorem c7_faces_have_four_vertices {lines : List String} {m : GdfModel}
    (h : parse lines = .ok m) : ∀ f ∈ m.faces, f.length = 4 := by
  intro f hf
  rcases hp : processLines initSt lines with e | s
  · simp only [parse, hp] at h
    exact Except.noConfusion h
  · simp only [parse, hp, Except.ok.injEq] at h
    have hinv := processLines_facesInv facesInv_initSt hp
    rw [← h] at hf
    simp only [mkModel] at hf
    rw [hinv.2] at hf
    simp only [facesSpec, List.mem_map, List.mem_range] at hf
    obtain ⟨i, _, rfl⟩ := hf
    simp [List.length_range']

/-- Witness for C7 at a concrete one-panel input. -/
theorem c7_faces_have_four_vertices_witness :
    parse c7Lines = Except.ok c7Model ∧ [0, 1, 2, 3] ∈ c7Model.faces ∧
      ([0, 1, 2, 3] : List ℕ).length = 4 :=
  ⟨by decide, by decide,
    @c7_faces_have_four_vertices c7Lines c7Model (by decide) [0, 1, 2, 3] (by decide)⟩

/-- The sweep state reached on `c10Lines`. -/
def c10St : PSt :=
  { ulen := 0, grav := 0, isx := 0, isy := 0, npan := 0, in_header := false,
    vertices := [(0, 0, 0), (1, 0, 0), (1, 1, 0), (0, 1, 0),
                 (0, 0, 1), (1, 0, 1), (1, 1, 1), (0, 1, 1)],
    faces := [[0, 1, 2, 3], [4, 5, 6, 7]] }

/-- Claim C10: after processing any prefix of the input (`parseState` on
an arbitrary line list), `len(vertices) = 4 * len(faces)`, the `i`-th
face is exactly `[4i, 4i+1, 4i+2, 4i+3]` (stated as a map over
`List.range`), and every face index is in range.  Since the blocks of
four indices are pairwise disjoint, each vertex belongs to exactly one
face. -/
theorem c10_face_indices_invariant {lines : List String} {s : PSt}
    (h : parseState lines = .ok s) :
    s.vertices.length = 4 * s.faces.length ∧
      s.faces = (List.range s.faces.length).map
        (fun i => [4 * i, 4 * i + 1, 4 * i + 2, 4 * i + 3]) ∧
      ∀ f ∈ s.faces, ∀ j ∈ f, j < s.vertices.length := by
  have hinv := processLines_facesInv facesInv_initSt h
  obtain ⟨hv, hfc⟩ := hinv
  refine ⟨hv, ?_, ?_⟩
  · conv_lhs => rw [hfc]
    simp only [facesSpec, range_four]
  · intro f hf j hj
    rw [hfc] at hf
    simp only [facesSpec, List.mem_map, List.mem_range] at hf
    obtain ⟨i, hi, rfl⟩ := hf
    have hb := List.mem_range'_1.mp hj
    rw [hv]
    omega

/-- Witness for C10 at a concrete two-panel input. -/
theorem c10_face_indices_invariant_witness :
    parseState c10Lines = Except.ok c10St ∧
      c10St.vertices.length = 4 * c10St.faces.length :=
  ⟨by decide, (@c10_face_indices_invariant c10Lines c10St (by decide)).1⟩

/-! Non-interference: the five scalar variables are written but never
read during the sweep, so they cannot influence the header flag, the
vertices or the faces. -/

theorem applyKw_meshOf_congr {s t : PSt} {ws : List String} {kw : String}
    (h : meshOf s = meshOf t) :
    (applyKw s ws kw).map meshOf = (applyKw t ws kw).map meshOf := by
  by_cases hc : ws.contains kw
  · rcases hg : pyGet ws ((ws.indexOf kw : ℤ) - ((ws.length / 2 : ℕ) : ℤ)) with _ | value
    · simp only [applyKw, hc, hg, if_true, Except.map]
    · rcases hf : pyFloat value with _ | v
      · simp only [applyKw, hc, hg, hf, if_true, Except.map]
      · simp only [applyKw, hc, hg, hf, if_true, Except.map]
        rw [setKw_meshOf, setKw_meshOf, h]
  · simp only [applyKw, hc, Bool.false_eq_true, if_false, Except.map]
    rw [h]

theorem applyKws_meshOf_congr {ks : List String} :
    ∀ {s t : PSt} {ws : List String}, meshOf s = meshOf t →
      (applyKws s ws ks).map meshOf = (applyKws t ws ks).map meshOf := by
  induction ks with
  | nil =>
    intro s t ws h
    simp only [applyKws, Except.map]
    rw [h]
  | cons kw ks ih =>
    intro s t ws h
    have hkw := @applyKw_meshOf_congr s t ws kw h
    rcases ha : applyKw s ws kw with e | s1 <;> rcases hb : applyKw t ws kw with f | t1
    · rw [ha, hb] at hkw
      simp only [Except.map, Except.error.injEq] at hkw
      subst hkw
      simp [applyKws, ha, hb]
    · rw [ha, hb] at hkw
      simp only [Except.map] at hkw
      exact absurd hkw (by simp)
    · rw [ha, hb] at hkw
      simp only [Except.map] at hkw
      exact absurd hkw (by simp)
    · rw [ha, hb] at hkw
      simp only [Except.map, Except.ok.injEq] at hkw
      simp only [applyKws, ha, hb]
      exact ih hkw

theorem stepLine_meshOf_congr {s t : PSt} {l : String} (h : meshOf s = meshOf t) :
    (stepLine s l).map meshOf = (stepLine t l).map meshOf := by
  have h0 : s.in_header = t.in_header := congrArg Prod.fst h
  have h1 : s.vertices = t.vertices := congrArg (fun p => p.2.1) h
  have h2 : s.faces = t.faces := congrArg (fun p => p.2.2) h
  by_cases hh : s.in_header = true
  · have hh2 : t.in_header = true := h0 ▸ hh
    by_cases hlen : ((tokens l).length == 1) = true
    · simp only [stepLine, if_pos hh, if_pos hh2, if_pos hlen, Except.map]
      simp only [meshOf]
      rw [h1, h2]
    · simp only [stepLine, if_pos hh, if_pos hh2, if_neg hlen]
      exact @applyKws_meshOf_congr keywords s t (tokens l) h
  · have hh2 : ¬ t.in_header = true := by rw [← h0]; exact hh
    by_cases hlen : ((tokens l).length == 12) = true
    · simp only [stepLine, if_neg hh, if_neg hh2, if_pos hlen]
      rcases hf : floatsOf (tokens l) with e | vals
      · simp [Except.map]
      · simp only [Except.map, meshOf]
        rw [h0, h1, h2]
    · simp only [stepLine, if_neg hh, if_neg hh2, if_neg hlen, Except.map]
      rw [h]

theorem processLines_meshOf_congr {lines : List String} :
    ∀ {s t : PSt}, meshOf s = meshOf t →
      (processLines s lines).map meshOf = (processLines t lines).map meshOf := by
  induction lines with
  | nil =>
    intro s t h
    simp only [processLines, Except.map]
    rw [h]
  | cons l rest ih =>
    intro s t h
    have hst := @stepLine_meshOf_congr s t l h
    rcases ha : stepLine s l with e | s1 <;> rcases hb : stepLine t l with f | t1
    · rw [ha, hb] at hst
      simp only [Except.map, Except.error.injEq] at hst
      subst hst
      simp [processLines, ha, hb]
    · rw [ha, hb] at hst
      simp only [Except.map] at hst
      exact absurd hst (by simp)
    · rw [ha, hb] at hst
      simp only [Except.map] at hst
      exact absurd hst (by simp)
    · rw [ha, hb] at hst
      simp only [Except.map, Except.ok.injEq] at hst
      simp only [processLines, ha, hb]
      exact ih hst

/-- Claim C6 (amended): the declared panel count NPAN is parsed into the
variable `npan` but never read during the sweep: changing the stored
`npan` of any state changes nothing in the sweep's outcome — the same
success or failure, the same header flag, vertices and faces.  In
particular no comparison of NPAN with the number of parsed panels ever
happens and no warning diagnostic is emitted on mismatch. -/
theorem c6_npan_never_read (lines : List String) (s : PSt) (v : ℚ) :
    (processLines { s with npan := v } lines).map meshOf =
      (processLines s lines).map meshOf :=
  processLines_meshOf_congr rfl

/-- Claim C2 (amended): the import never range-checks the symmetry
values; whenever it succeeds, a mirror is applied on an axis exactly
when the parsed value equals 1, and any other value (such as 2) is
accepted and simply applies no mirror. -/
theorem c2_mirror_only_on_exact_one {lines : List String} {m : GdfModel}
    (h : parse lines = .ok m) :
    m.mirrorX = decide (m.isx = 1) ∧ m.mirrorY = decide (m.isy = 1) := by
  rcases hp : processLines initSt lines with e | s
  · simp only [parse, hp] at h
    exact Except.noConfusion h
  · simp only [parse, hp, Except.ok.injEq] at h
    rw [← h]
    exact ⟨rfl, rfl⟩

/-- Witness for the amended C2 at the concrete input with ISX = 2. -/
theorem c2_mirror_only_on_exact_one_witness :
    parse c2Lines = Except.ok c2Model ∧
      (c2Model.mirrorX = decide (c2Model.isx = 1) ∧
        c2Model.mirrorY = decide (c2Model.isy = 1)) :=
  ⟨by decide, @c2_mirror_only_on_exact_one c2Lines c2Model (by decide)⟩

/-- Claim C4 (amended): ULEN is never validated; whenever the import
succeeds, the model's scale is `(ulen, ulen, ulen)` for whatever value
was parsed — non-positive values included. -/
theorem c4_scale_unvalidated {lines : List String} {m : GdfModel}
    (h : parse lines = .ok m) : m.scale = (m.ulen, m.ulen, m.ulen) := by
  rcases hp : processLines initSt lines with e | s
  · simp only [parse, hp] at h
    exact Except.noConfusion h
  · simp only [parse, hp, Except.ok.injEq] at h
    rw [← h]
    rfl

/-- Witness for the amended C4 at the concrete input with ULEN = -1. -/
theorem c4_scale_unvalidated_witness :
    parse c4Lines = Except.ok c4Model ∧
      c4Model.scale = (c4Model.ulen, c4Model.ulen, c4Model.ulen) :=
  ⟨by decide, @c4_scale_unvalidated c4Lines c4Model (by decide)⟩

/-- Claim C3 (amended): while in header mode, processing one line ends
the header exactly when that line has exactly one token; a first line
with any other token count leaves the sweep in the header state, and no
header text is captured anywhere. -/
theorem c3_header_ends_iff_single_token {s t : PSt} {l : String}
    (hh : s.in_header = true) (h : stepLine s l = .ok t) :
    t.in_header = false ↔ (tokens l).length = 1 := by
  simp only [stepLine] at h
  rw [if_pos hh] at h
  by_cases hlen : ((tokens l).length == 1) = true
  · rw [if_pos hlen] at h
    cases h
    have hlen1 : (tokens l).length = 1 := by simpa using hlen
    simp [hlen1]
  · rw [if_neg hlen] at h
    have hm := applyKws_ok_meshOf h
    have ht : t.in_header = s.in_header := congrArg Prod.fst hm
    rw [ht, hh]
    simpa using hlen

/-- Witness for the amended C3: on the two-token line `"a b"` the sweep
stays in the header state. -/
theorem c3_header_ends_iff_single_token_witness :
    initSt.in_header = true ∧ stepLine initSt "a b" = Except.ok initSt ∧
      (initSt.in_header = false ↔ (tokens "a b").length = 1) :=
  ⟨rfl, by decide, @c3_header_ends_iff_single_token initSt initSt "a b" rfl (by decide)⟩

/-- A sweep state past the header, with no accumulated mesh. -/
def c5St : PSt :=
  { ulen := 0, grav := 0, isx := 0, isy := 0, npan := 0,
    in_header := false, vertices := [], faces := [] }

/-- The degenerate all-coincident data line used for claim C5. -/
def c5Line : String := "2 2 2 2 2 2 2 2 2 2 2 2"

/-- Claim C5 (amended): the import performs no geometric validation at
all — past the header, any line of 12 numeric tokens unconditionally
appends exactly one face, with no area computation and no possibility
of a geometric diagnostic, whatever the coordinates are. -/
theorem c5_numeric_line_always_adds_face {s : PSt} {l : String}
    (hh : s.in_header = false) (h12 : (tokens l).length = 12)
    (hnum : ((tokens l).all fun w => (pyFloat w).isSome) = true) :
    (stepLine s l).map (fun t => t.faces.length) = .ok (s.faces.length + 1) := by
  obtain ⟨vals, hvals⟩ := floatsOf_all_isSome hnum
  have hcond : ¬ (s.in_header = true) := by simp [hh]
  have hcond12 : ((tokens l).length == 12) = true := by simp [h12]
  simp only [stepLine, if_neg hcond, if_pos hcond12, hvals, Except.map,
    List.length_append, List.length_cons, List.length_nil]

/-- Witness for the amended C5: the zero-area line `c5Line` appends a
face to the empty post-header state. -/
theorem c5_numeric_line_always_adds_face_witness :
    c5St.in_header = false ∧ (tokens c5Line).length = 12 ∧
      ((tokens c5Line).all fun w => (pyFloat w).isSome) = true ∧
      (stepLine c5St c5Line).map (fun t => t.faces.length) =
        .ok (c5St.faces.length + 1) :=
  ⟨rfl, by decide, by decide,
    @c5_numeric_line_always_adds_face c5St c5Line rfl (by decide) (by decide)⟩

/-! Scalar preservation: lines without keyword tokens never assign the
five scalar variables. -/

theorem stepLine_data_scalars {s t : PSt} {l : String} (hh : s.in_header = false)
    (h : stepLine s l = .ok t) :
    t.ulen = s.ulen ∧ t.grav = s.grav ∧ t.isx = s.isx ∧ t.isy = s.isy ∧
      t.npan = s.npan ∧ t.in_header = false := by
  have hcond : ¬ (s.in_header = true) := by simp [hh]
  simp only [stepLine, if_neg hcond] at h
  split at h
  · split at h
    · exact Except.noConfusion h
    · cases h
      exact ⟨rfl, rfl, rfl, rfl, rfl, hh⟩
  · cases h
    exact ⟨rfl, rfl, rfl, rfl, rfl, hh⟩

theorem stepLine_header_single {s : PSt} {l : String} (hh : s.in_header = true)
    (hlen : ((tokens l).length == 1) = true) :
    stepLine s l = .ok { s with in_header := false } := by
  simp only [stepLine]
  rw [if_pos hh, if_pos hlen]

theorem stepLine_header_noKw {s : PSt} {l : String} (hh : s.in_header = true)
    (hkw : noKwB l = true) (hlen : ((tokens l).length == 1) = false) :
    stepLine s l = .ok s := by
  simp only [stepLine]
  rw [if_pos hh, if_neg (by simp [hlen])]
  apply applyKws_no_kw
  intro k hk
  simp only [noKwB, List.all_eq_true] at hkw
  simpa using hkw k hk

theorem scalars_zero_aux {lines : List String} :
    ∀ {s t : PSt}, processLines s lines = .ok t →
      (s.in_header = true → (headerRegion lines).all noKwB = true) →
      t.ulen = s.ulen ∧ t.grav = s.grav ∧ t.isx = s.isx ∧ t.isy = s.isy ∧
        t.npan = s.npan := by
  induction lines with
  | nil =>
    intro s t h _
    cases h
    exact ⟨rfl, rfl, rfl, rfl, rfl⟩
  | cons l rest ih =>
    intro s t h hkw
    by_cases hh : s.in_header = true
    · by_cases hlen : ((tokens l).length == 1) = true
      · simp only [processLines, stepLine_header_single hh hlen] at h
        exact @ih { s with in_header := false } t h (fun hx => absurd hx (by simp))
      · have hlen0 : ((tokens l).length == 1) = false := by simpa using hlen
        have hhr : headerRegion (l :: rest) = l :: headerRegion rest := by
          simp [headerRegion, List.takeWhile_cons, hlen0]
        have hall := hkw hh
        rw [hhr] at hall
        simp only [List.all_cons, Bool.and_eq_true] at hall
        simp only [processLines, stepLine_header_noKw hh hall.1 hlen0] at h
        exact ih h (fun _ => hall.2)
    · rcases hs : stepLine s l with e | s1
      · simp only [processLines, hs] at h
        exact Except.noConfusion h
      · simp only [processLines, hs] at h
        obtain ⟨d1, d2, d3, d4, d5, d6⟩ := stepLine_data_scalars (by simpa using hh) hs
        obtain ⟨r1, r2, r3, r4, r5⟩ := ih h (fun hx => absurd hx (by simp [d6]))
        exact ⟨r1.trans d1, r2.trans d2, r3.trans d3, r4.trans d4, r5.trans d5⟩

/-- Claim C9: if no keyword label among ULEN, GRAV, ISX, ISY, NPAN
occurs as a token on any header-region line (the lines before the first
single-token line — the canonical strictly positional, unlabeled GDF
layout), then whenever the import succeeds, `ulen`, `grav`, `isx`,
`isy` and `npan` all keep their initial value 0, the produced object
has scale `(0, 0, 0)`, and no mirror symmetry is ever applied. -/
theorem c9_no_keywords_all_defaults {lines : List String} {m : GdfModel}
    (hkw : (headerRegion lines).all noKwB = true) (h : parse lines = .ok m) :
    (m.ulen, m.grav, m.isx, m.isy, m.npan) = (0, 0, 0, 0, 0) ∧
      m.scale = (0, 0, 0) ∧ m.mirrorX = false ∧ m.mirrorY = false := by
  rcases hp : processLines initSt lines with e | s
  · simp only [parse, hp] at h
    exact Except.noConfusion h
  · simp only [parse, hp, Except.ok.injEq] at h
    obtain ⟨h1, h2, h3, h4, h5⟩ := scalars_zero_aux hp (fun _ => hkw)
    rw [← h]
    simp only [mkModel]
    rw [h1, h2, h3, h4, h5]
    refine ⟨rfl, rfl, by decide, by decide⟩

/-- A keyword-free file for the C9 witness. -/
def c9Lines : List String := ["a b", "1", "3 0 0 1 0 0 1 1 0 0 1 0"]

/-- The model the import produces for `c9Lines`. -/
def c9Model : GdfModel :=
  { ulen := 0, grav := 0, isx := 0, isy := 0, npan := 0,
    vertices := [(3, 0, 0), (1, 0, 0), (1, 1, 0), (0, 1, 0)],
    faces := [[0, 1, 2, 3]],
    mirrorX := false, mirrorY := false, scale := (0, 0, 0) }

/-- Witness for C9 at a concrete keyword-free input. -/
theorem c9_no_keywords_all_defaults_witness :
    (headerRegion c9Lines).all noKwB = true ∧ parse c9Lines = Except.ok c9Model ∧
      ((c9Model.ulen, c9Model.grav, c9Model.isx, c9Model.isy, c9Model.npan) =
          (0, 0, 0, 0, 0) ∧
        c9Model.scale = (0, 0, 0) ∧ c9Model.mirrorX = false ∧
        c9Model.mirrorY = false) :=
  ⟨by decide, by decide,
    @c9_no_keywords_all_defaults c9Lines c9Model (by decide) (by decide)⟩

end Wamit
